import Mathlib

/-!
Verification of the devfire/dns-server wire codec, response builder and
domain-name parser, as a shallow embedding of the Rust sources.

Bytes are modelled as `Nat` with an explicit `% 256` applied wherever the
Rust code reads a `u8`, and `% 65536` wherever a value is cast to `u16`.
Rust strings are modelled as their UTF-8 byte lists (`List Nat`).
-/

/-- Big-endian serialization of a 16-bit value, as `BytesMut.put_u16`:
the value is truncated to 16 bits exactly as a `u16` cast would. -/
def be16 (n : Nat) : List Nat := [n / 256 % 256, n % 256]

/-- Big-endian serialization of a 32-bit value, as `BytesMut.put_u32`. -/
def be32 (n : Nat) : List Nat :=
  [n / 16777216 % 256, n / 65536 % 256, n / 256 % 256, n % 256]

/-- `src/protocol.rs`: `DnsPacketHeader`.  `u16`/`u8` fields become `Nat`,
`bool` fields become `Bool`. -/
structure DnsPacketHeader where
  id : Nat
  qr : Bool
  opcode : Nat
  aa : Bool
  tc : Bool
  rd : Bool
  ra : Bool
  z : Nat
  rcode : Nat
  qdcount : Nat
  ancount : Nat
  nscount : Nat
  arcount : Nat
deriving DecidableEq, Repr

/-- `src/protocol.rs`: `DnsQuestion`.  The name is the decoded dotted text,
kept as its UTF-8 byte list. -/
structure DnsQuestion where
  name : List Nat
  qtype : Nat
  qclass : Nat
deriving DecidableEq, Repr

/-- `src/protocol.rs`: `DnsResourceRecord`. -/
structure DnsResourceRecord where
  name : List Nat
  rtype : Nat
  rclass : Nat
  ttl : Nat
  rdlength : Nat
  rdata : List Nat
deriving DecidableEq, Repr

/-- `src/protocol.rs`: `DnsResourceRecord::new` derives `rdlength` from the
payload length (`rdata.len() as u16`). -/
def DnsResourceRecord.new (name : List Nat) (rtype rclass ttl : Nat)
    (rdata : List Nat) : DnsResourceRecord :=
  { name := name, rtype := rtype, rclass := rclass, ttl := ttl,
    rdlength := rdata.length % 65536, rdata := rdata }

/-- `src/protocol.rs`: `DnsPacket`. -/
structure DnsPacket where
  header : DnsPacketHeader
  questions : List DnsQuestion
  answers : List DnsResourceRecord
deriving DecidableEq, Repr

/-- `src/errors.rs`: `DnsCodecError` (the string payloads of `NomError` and
`InvalidDomainName` and the `IoError` source are not modelled). -/
inductive DnsCodecError where
  | incompletePacket (needed : Nat) (available : Nat)
  | nomError
  | invalidDomainName
deriving DecidableEq, Repr

/-- `src/codec.rs`: the label list produced by `domain_name.split('.')`,
on UTF-8 byte lists (the byte 46 is `'.'`; it never occurs inside a
multi-byte UTF-8 sequence, so byte-level splitting coincides with Rust's
`char`-level split). -/
def splitOnByte (sep : Nat) : List Nat → List (List Nat)
  | [] => [[]]
  | b :: rest =>
    if b == sep then [] :: splitOnByte sep rest
    else
      match splitOnByte sep rest with
      | [] => [[b]]
      | l :: ls => (b :: l) :: ls

/-- `src/parsers.rs`: `labels.join(".")`. -/
def joinDots : List (List Nat) → List Nat
  | [] => []
  | [l] => l
  | l :: l2 :: ls => l ++ 46 :: joinDots (l2 :: ls)

/-- `src/codec.rs` lines 155-174: the label-encoding loop of
`encode_domain_name`: over-long labels are rejected, empty labels are
skipped, and each remaining label is written as a length byte followed by
its bytes. -/
def encodeLabels : List (List Nat) → Except DnsCodecError (List Nat)
  | [] => .ok []
  | l :: ls =>
    if l.length > 63 then .error .invalidDomainName
    else if l.length == 0 then encodeLabels ls
    else do
      let rest ← encodeLabels ls
      .ok ((l.length :: l) ++ rest)

/-- `src/codec.rs`: `encode_domain_name`: split on `'.'`, encode the labels,
terminate with a null byte. -/
def encode_domain_name (domain_name : List Nat) :
    Except DnsCodecError (List Nat) := do
  let labelBytes ← encodeLabels (splitOnByte 46 domain_name)
  .ok (labelBytes ++ [0])

/-- `src/codec.rs` lines 190-227: assembly of the 16-bit flags word inside
`encode_header`. -/
def flagsWord (h : DnsPacketHeader) : Nat :=
  (if h.qr then 0x8000 else 0) |||
  (((h.opcode &&& 0x0F) <<< 11)) |||
  (if h.aa then 0x0400 else 0) |||
  (if h.tc then 0x0200 else 0) |||
  (if h.rd then 0x0100 else 0) |||
  (if h.ra then 0x0080 else 0) |||
  ((h.z &&& 0x07) <<< 4) |||
  (h.rcode &&& 0x0F)

/-- `src/codec.rs`: `encode_header` writes id, flags and the four counters
big-endian, 12 bytes in total. -/
def encode_header (h : DnsPacketHeader) : List Nat :=
  be16 h.id ++ be16 (flagsWord h) ++ be16 h.qdcount ++ be16 h.ancount ++
  be16 h.nscount ++ be16 h.arcount

/-- `src/codec.rs` lines 100-109: the question-encoding loop of `encode`. -/
def encodeQuestions : List DnsQuestion → Except DnsCodecError (List Nat)
  | [] => .ok []
  | q :: qs => do
    let nameB ← encode_domain_name q.name
    let rest ← encodeQuestions qs
    .ok (nameB ++ be16 q.qtype ++ be16 q.qclass ++ rest)

/-- `src/codec.rs` lines 112-130: the answer-encoding loop of `encode`; the
data length written is derived from `rdata.len()`, not the stored
`rdlength`. -/
def encodeAnswers : List DnsResourceRecord → Except DnsCodecError (List Nat)
  | [] => .ok []
  | a :: as_ => do
    let nameB ← encode_domain_name a.name
    let rest ← encodeAnswers as_
    .ok (nameB ++ be16 a.rtype ++ be16 a.rclass ++ be32 a.ttl ++
         be16 a.rdata.length ++ a.rdata ++ rest)

/-- `src/codec.rs`: `DnsCodec::encode`.  The header is first replaced by a
corrected copy whose `qdcount`/`ancount` are the true collection sizes cast
to `u16`; `nscount`/`arcount` are carried over unchanged. -/
def encode (item : DnsPacket) : Except DnsCodecError (List Nat) := do
  let corrected : DnsPacketHeader :=
    { item.header with
      qdcount := item.questions.length % 65536
      ancount := item.answers.length % 65536 }
  let qb ← encodeQuestions item.questions
  let ab ← encodeAnswers item.answers
  .ok (encode_header corrected ++ qb ++ ab)

/-- A UTF-8 continuation byte (`0x80..=0xBF`). -/
def utf8IsCont (c : Nat) : Bool := 0x80 ≤ c && c ≤ 0xBF

/-- Valid-range check for the first continuation byte of a three-byte UTF-8
sequence, depending on the lead byte (surrogate and overlong exclusions, as
in Rust's `core::str` validation used by `String::from_utf8_lossy`). -/
def utf8Cont3First (b c : Nat) : Bool :=
  if b == 0xE0 then 0xA0 ≤ c && c ≤ 0xBF
  else if b == 0xED then 0x80 ≤ c && c ≤ 0x9F
  else utf8IsCont c

/-- Valid-range check for the first continuation byte of a four-byte UTF-8
sequence, depending on the lead byte. -/
def utf8Cont4First (b c : Nat) : Bool :=
  if b == 0xF0 then 0x90 ≤ c && c ≤ 0xBF
  else if b == 0xF4 then 0x80 ≤ c && c ≤ 0x8F
  else utf8IsCont c

/-- One step of UTF-8 validation, as in Rust's `str::from_utf8` machinery:
`(true, n)` means the first `n` bytes form one valid character; `(false, n)`
means the first `n` bytes are a maximal invalid subpart (replaced by one
U+FFFD by `String::from_utf8_lossy`).  `n ≥ 1` whenever the input is
non-empty. -/
def utf8Chunk : List Nat → Bool × Nat
  | [] => (true, 0)
  | b :: rest =>
    if b < 0x80 then (true, 1)
    else if b < 0xC2 then (false, 1)
    else if b ≤ 0xDF then
      match rest with
      | [] => (false, 1)
      | c1 :: _ => if utf8IsCont c1 then (true, 2) else (false, 1)
    else if b ≤ 0xEF then
      match rest with
      | [] => (false, 1)
      | c1 :: rest2 =>
        if utf8Cont3First b c1 then
          match rest2 with
          | [] => (false, 2)
          | c2 :: _ => if utf8IsCont c2 then (true, 3) else (false, 2)
        else (false, 1)
    else if b ≤ 0xF4 then
      match rest with
      | [] => (false, 1)
      | c1 :: rest2 =>
        if utf8Cont4First b c1 then
          match rest2 with
          | [] => (false, 2)
          | c2 :: rest3 =>
            if utf8IsCont c2 then
              match rest3 with
              | [] => (false, 3)
              | c3 :: _ => if utf8IsCont c3 then (true, 4) else (false, 3)
            else (false, 2)
        else (false, 1)
    else (false, 1)

/-- The UTF-8 encoding of U+FFFD REPLACEMENT CHARACTER. -/
def utf8Replacement : List Nat := [0xEF, 0xBF, 0xBD]

/-- Fuelled worker for `utf8Lossy`; the fuel only bounds the number of
chunks, and `fuel = length` always suffices since every chunk is
non-empty. -/
def utf8LossyGo : Nat → List Nat → List Nat
  | _, [] => []
  | 0, _ => []
  | fuel + 1, xs =>
    let c := utf8Chunk xs
    (if c.1 then xs.take c.2 else utf8Replacement) ++
      utf8LossyGo fuel (xs.drop c.2)

/-- `String::from_utf8_lossy(bytes).to_string()`, at the level of UTF-8
byte lists: valid characters are copied, maximal invalid subparts are
replaced by U+FFFD. -/
def utf8Lossy (xs : List Nat) : List Nat := utf8LossyGo xs.length xs

/-- Fuelled worker for `utf8Valid`. -/
def utf8ValidGo : Nat → List Nat → Bool
  | _, [] => true
  | 0, _ => false
  | fuel + 1, xs =>
    (utf8Chunk xs).1 && utf8ValidGo fuel (xs.drop (utf8Chunk xs).2)

/-- Whether a byte list is valid UTF-8 (`str::from_utf8(bytes).is_ok()`). -/
def utf8Valid (xs : List Nat) : Bool := utf8ValidGo xs.length xs

/-- Result of a nom-style parser over the shallow embedding.
`ok rest val` is `IResult::Ok((rest, val))`; `err` merges nom's
`Err::Error` and `Err::Failure` (the decoder in `src/codec.rs` maps both to
`DnsCodecError::NomError`); `panicked` marks a Rust panic (the
out-of-bounds slice `&full_packet[offset..]`); `outOfFuel` marks recursion
deeper than the fuel — the Rust code has no such bound, so a result of
`outOfFuel` at every fuel models non-termination. -/
inductive PRes (α : Type) where
  | ok (rest : List Nat) (val : α)
  | err
  | panicked
  | outOfFuel
deriving DecidableEq, Repr

/-- Sequencing of `PRes` computations, threading the remaining input. -/
def PRes.bind {α β : Type} : PRes α → (List Nat → α → PRes β) → PRes β
  | .ok rest val, f => f rest val
  | .err, _ => .err
  | .panicked, _ => .panicked
  | .outOfFuel, _ => .outOfFuel

/-- `src/parsers.rs`: `parse_dns_packet_header` — six big-endian 16-bit
reads and the bit-mask decomposition of the flags word. -/
def parse_dns_packet_header (input : List Nat) : PRes DnsPacketHeader :=
  match input with
  | b0 :: b1 :: b2 :: b3 :: b4 :: b5 :: b6 :: b7 :: b8 :: b9 :: b10 :: b11 :: rest =>
    let id := (b0 % 256) * 256 + b1 % 256
    let flags := (b2 % 256) * 256 + b3 % 256
    .ok rest
      { id := id
        qr := (flags &&& 0x8000) != 0
        opcode := (flags &&& 0x7800) >>> 11
        aa := (flags &&& 0x0400) != 0
        tc := (flags &&& 0x0200) != 0
        rd := (flags &&& 0x0100) != 0
        ra := (flags &&& 0x0080) != 0
        z := (flags &&& 0x0070) >>> 4
        rcode := flags &&& 0x000F
        qdcount := (b4 % 256) * 256 + b5 % 256
        ancount := (b6 % 256) * 256 + b7 % 256
        nscount := (b8 % 256) * 256 + b9 % 256
        arcount := (b10 % 256) * 256 + b11 % 256 }
  | _ => .err

/-- `src/parsers.rs`: `parse_name_recursive`.  The Rust function recurses
with no bound; here `fuel` counts recursive calls so that divergence is
observable as `outOfFuel` at every fuel.  In the pointer case the Rust code
takes the slice `&full_packet[offset..]`, which panics when
`offset > full_packet.len()` — modelled by `panicked`. -/
def parse_name_recursive (fuel : Nat) (full_packet input : List Nat) :
    PRes (List (List Nat)) :=
  match fuel with
  | 0 => .outOfFuel
  | fuel + 1 =>
    match input with
    | [] => .err
    | lengthByte :: i =>
      let l := lengthByte % 256
      if l &&& 0xC0 == 0xC0 then
        match i with
        | [] => .err
        | nextByte :: i2 =>
          let offset := (l * 256 + nextByte % 256) &&& 0x3FFF
          if offset > full_packet.length then .panicked
          else
            match parse_name_recursive fuel full_packet
                (full_packet.drop offset) with
            | .ok _ labels => .ok i2 labels
            | .err => .err
            | .panicked => .panicked
            | .outOfFuel => .outOfFuel
      else if l == 0 then .ok i []
      else if l ≤ 63 then
        if i.length < l then .err
        else
          let label := utf8Lossy (i.take l)
          match parse_name_recursive fuel full_packet (i.drop l) with
          | .ok rest nextLabels => .ok rest (label :: nextLabels)
          | .err => .err
          | .panicked => .panicked
          | .outOfFuel => .outOfFuel
      else .err

/-- `src/parsers.rs`: `parse_domain_name` — parse the labels and join them
with `'.'`. -/
def parse_domain_name (fuel : Nat) (full_packet input : List Nat) :
    PRes (List Nat) :=
  PRes.bind (parse_name_recursive fuel full_packet input)
    fun i labels => .ok i (joinDots labels)

/-- `src/parsers.rs`: `parse_dns_question` — a domain name followed by two
big-endian 16-bit fields. -/
def parse_dns_question (fuel : Nat) (full_packet input : List Nat) :
    PRes DnsQuestion :=
  PRes.bind (parse_domain_name fuel full_packet input) fun i name =>
    match i with
    | t1 :: t0 :: c1 :: c0 :: rest =>
      .ok rest
        { name := name
          qtype := (t1 % 256) * 256 + t0 % 256
          qclass := (c1 % 256) * 256 + c0 % 256 }
    | _ => .err

/-- `src/parsers.rs`: the question loop of `parse_dns_packet`
(`for _ in 0..header.qdcount`). -/
def parseQuestionsLoop (fuel : Nat) (full_packet : List Nat) :
    Nat → List Nat → PRes (List DnsQuestion)
  | 0, input => .ok input []
  | n + 1, input =>
    PRes.bind (parse_dns_question fuel full_packet input) fun i q =>
      PRes.bind (parseQuestionsLoop fuel full_packet n i) fun i2 qs =>
        .ok i2 (q :: qs)

/-- `src/parsers.rs`: `parse_dns_packet` — header, then `qdcount`
questions; answers are never parsed and the answer list is empty. -/
def parse_dns_packet (fuel : Nat) (input : List Nat) : PRes DnsPacket :=
  PRes.bind (parse_dns_packet_header input) fun rest header =>
    PRes.bind (parseQuestionsLoop fuel input header.qdcount rest)
      fun rest2 questions =>
        .ok rest2 { header := header, questions := questions, answers := [] }

/-- Result of `DnsCodec::decode` (`src/codec.rs`).  `item p n` is
`Ok(Some(p))` with `n` bytes consumed; `needMore` is `Ok(None)`;
`incomplete`/`nomErr` are `Err(IncompletePacket)`/`Err(NomError)`.  With
nom's `complete`-flavoured sub-parsers `Err::Incomplete` is never produced,
so the `incomplete` arm of the Rust match is dead code; the constructor is
kept to state claims about it.  `panicked` and `outOfFuel` are as in
`PRes`. -/
inductive DecodeOutcome where
  | item (packet : DnsPacket) (consumed : Nat)
  | needMore
  | incomplete (needed : Nat) (available : Nat)
  | nomErr
  | panicked
  | outOfFuel
deriving DecidableEq, Repr

/-- `src/codec.rs`: `DnsCodec::decode`.  Buffers shorter than 12 bytes
yield `Ok(None)`; otherwise `parse_dns_packet` runs and its nom error is
mapped to `NomError`. -/
def decode (fuel : Nat) (src : List Nat) : DecodeOutcome :=
  if src.length < 12 then .needMore
  else
    match parse_dns_packet fuel src with
    | .ok remaining packet => .item packet (src.length - remaining.length)
    | .err => .nomErr
    | .panicked => .panicked
    | .outOfFuel => .outOfFuel

/-- `std::net::IpAddr`: a v4 address as its four octets, a v6 address as
its eight 16-bit segments. -/
inductive IpAddr where
  | v4 (a b c d : Nat)
  | v6 (s0 s1 s2 s3 s4 s5 s6 s7 : Nat)
deriving DecidableEq, Repr

/-- `Ipv4Addr::octets` / `Ipv6Addr::octets`: the big-endian byte view of
the address (4 bytes for v4, 16 bytes for v6). -/
def IpAddr.octets : IpAddr → List Nat
  | .v4 a b c d => [a % 256, b % 256, c % 256, d % 256]
  | .v6 s0 s1 s2 s3 s4 s5 s6 s7 =>
    be16 s0 ++ be16 s1 ++ be16 s2 ++ be16 s3 ++
    be16 s4 ++ be16 s5 ++ be16 s6 ++ be16 s7

/-- `src/response_builder.rs`: `DnsResponseBuilder` — the response header
template and the reusable question and answer vectors. -/
structure DnsResponseBuilder where
  response_header : DnsPacketHeader
  questions : List DnsQuestion
  answers : List DnsResourceRecord
deriving DecidableEq, Repr

/-- `src/response_builder.rs`: `DnsResponseBuilder::new`. -/
def DnsResponseBuilder.new : DnsResponseBuilder :=
  { response_header :=
      { id := 0, qr := true, opcode := 0, aa := false, tc := false,
        rd := false, ra := true, z := 0, rcode := 0,
        qdcount := 0, ancount := 0, nscount := 0, arcount := 0 }
    questions := []
    answers := [] }

/-- `src/response_builder.rs`: `build_response`.  The header template is
mutated (id and rd copied from the query, `qdcount` set to the query's
`qdcount` and `ancount` set to the query's `qdcount` as well), and the
packet carries the query's questions and the accumulated answers.  Returns
the mutated builder together with the packet. -/
def build_response (b : DnsResponseBuilder) (query_packet : DnsPacket) :
    DnsResponseBuilder × DnsPacket :=
  let h := { b.response_header with
    id := query_packet.header.id
    rd := query_packet.header.rd
    qdcount := query_packet.header.qdcount
    ancount := query_packet.header.qdcount }
  ({ b with response_header := h },
   { header := h, questions := query_packet.questions, answers := b.answers })

/-- `src/response_builder.rs`: `ResponseBuilder<'a>` — the fluent wrapper
holding the mutable builder and the borrowed query packet. -/
structure ResponseBuilder where
  builder : DnsResponseBuilder
  query_packet : DnsPacket
deriving DecidableEq, Repr

/-- `src/response_builder.rs`: `build_custom_response`. -/
def build_custom_response (b : DnsResponseBuilder) (query_packet : DnsPacket) :
    ResponseBuilder :=
  { builder := b, query_packet := query_packet }

/-- `src/response_builder.rs`: `with_rcode`. -/
def ResponseBuilder.with_rcode (s : ResponseBuilder) (rcode : Nat) :
    ResponseBuilder :=
  { s with builder := { s.builder with
      response_header := { s.builder.response_header with rcode := rcode } } }

/-- `src/response_builder.rs`: `with_qr`. -/
def ResponseBuilder.with_qr (s : ResponseBuilder) (qr : Bool) :
    ResponseBuilder :=
  { s with builder := { s.builder with
      response_header := { s.builder.response_header with qr := qr } } }

/-- `src/response_builder.rs`: `with_z`. -/
def ResponseBuilder.with_z (s : ResponseBuilder) (z : Nat) :
    ResponseBuilder :=
  { s with builder := { s.builder with
      response_header := { s.builder.response_header with z := z } } }

/-- `src/response_builder.rs`: `with_authoritative`. -/
def ResponseBuilder.with_authoritative (s : ResponseBuilder) (aa : Bool) :
    ResponseBuilder :=
  { s with builder := { s.builder with
      response_header := { s.builder.response_header with aa := aa } } }

/-- `src/response_builder.rs`: `with_recursion_available`. -/
def ResponseBuilder.with_recursion_available (s : ResponseBuilder)
    (ra : Bool) : ResponseBuilder :=
  { s with builder := { s.builder with
      response_header := { s.builder.response_header with ra := ra } } }

/-- `src/response_builder.rs`: `with_question` — clears the question list,
pushes the single new question, and sets `qdcount = 1` and `ancount = 1`. -/
def ResponseBuilder.with_question (s : ResponseBuilder) (domain : List Nat)
    (qtype qclass : Nat) : ResponseBuilder :=
  { s with builder := { s.builder with
      questions := [{ name := domain, qtype := qtype, qclass := qclass }]
      response_header := { s.builder.response_header with
        qdcount := 1, ancount := 1 } } }

/-- `src/response_builder.rs`: `with_a_record`. -/
def ResponseBuilder.with_a_record (s : ResponseBuilder) (domain : List Nat) :
    ResponseBuilder :=
  s.with_question domain 1 1

/-- `src/response_builder.rs`: `with_an_answer` — resets the question list
to the single A/IN question for `domain` and sets `qdcount = 1`, then
appends an answer whose record type is ALWAYS `DNS_TYPE_A` (1) with the
IP's raw octets as payload (4 bytes for v4, 16 for v6), and re-syncs
`ancount` with the answer count. -/
def ResponseBuilder.with_an_answer (s : ResponseBuilder) (domain : List Nat)
    (ip : IpAddr) (ttl : Nat) : ResponseBuilder :=
  let answers :=
    s.builder.answers ++ [DnsResourceRecord.new domain 1 1 ttl ip.octets]
  { s with builder := { s.builder with
      questions := [{ name := domain, qtype := 1, qclass := 1 }]
      answers := answers
      response_header := { s.builder.response_header with
        qdcount := 1, ancount := answers.length % 65536 } } }

/-- `src/response_builder.rs`: `with_txt_answer` — appends a TXT (16)
record whose payload is one length byte followed by the text bytes, and
re-syncs `ancount`; the question list is left untouched. -/
def ResponseBuilder.with_txt_answer (s : ResponseBuilder)
    (domain text : List Nat) (ttl : Nat) : ResponseBuilder :=
  let answers := s.builder.answers ++
    [DnsResourceRecord.new domain 16 1 ttl ((text.length % 256) :: text)]
  { s with builder := { s.builder with
      answers := answers
      response_header := { s.builder.response_header with
        ancount := answers.length % 65536 } } }

/-- `src/response_builder.rs`: `build`.  If the accumulated question list
is non-empty, the explicit branch copies id, rd and opcode from the query,
derives `rcode` from the opcode (`0 → 0`, otherwise `4`) and emits the
accumulated questions and answers; otherwise it falls back to
`build_response` on the query. -/
def ResponseBuilder.build (s : ResponseBuilder) : DnsPacket :=
  if s.builder.questions.isEmpty then
    (build_response s.builder s.query_packet).2
  else
    let h := { s.builder.response_header with
      id := s.query_packet.header.id
      rd := s.query_packet.header.rd
      opcode := s.query_packet.header.opcode
      rcode := if s.query_packet.header.opcode == 0 then 0 else 4 }
    { header := h, questions := s.builder.questions,
      answers := s.builder.answers }

/-- Label lengths (≤ 63) never collide with the pointer/reserved tag bits. -/
theorem and192_eq_zero {n : Nat} (h : n ≤ 63) : n &&& 192 = 0 := by
  have h64 : n < 64 := Nat.lt_succ_of_le h
  have hall : ∀ m : Fin 64, (m : Nat) &&& 192 = 0 := by decide
  simpa using hall ⟨n, h64⟩

/-- A 14-byte packet whose question name is a compression pointer aimed at
its own position (offset 12): header id 0, all flags 0, qdcount 1, then
the two pointer bytes `0xC0 0x0C`. -/
def cyclePacket : List Nat := [0, 0, 0, 0, 0, 1, 0, 0, 0, 0, 0, 0, 0xC0, 0x0C]

/-- The header that `parse_dns_packet_header` extracts from
`cyclePacket`. -/
def cycleHeader : DnsPacketHeader :=
  { id := 0, qr := false, opcode := 0, aa := false, tc := false,
    rd := false, ra := false, z := 0, rcode := 0,
    qdcount := 1, ancount := 0, nscount := 0, arcount := 0 }

/-- On the self-pointing name of `cyclePacket`, every amount of fuel is
exhausted: the Rust recursion never terminates. -/
theorem parse_name_cycle_outOfFuel (fuel : Nat) :
    parse_name_recursive fuel cyclePacket [0xC0, 0x0C] = .outOfFuel := by
  induction fuel with
  | zero => rfl
  | succ n ih =>
    have hstep : parse_name_recursive (n + 1) cyclePacket [0xC0, 0x0C] =
        match parse_name_recursive n cyclePacket (cyclePacket.drop 12) with
        | .ok _ labels => .ok [] labels
        | .err => .err
        | .panicked => .panicked
        | .outOfFuel => .outOfFuel := rfl
    rw [hstep, show cyclePacket.drop 12 = [0xC0, 0x0C] from rfl, ih]

/-- Claim C1 (code bug): the spec demands that domain-name decoding bound
its total recursion and raise a parse failure on exceedance, but
`parse_name_recursive` has no depth cap and no visited-offset set: on the
self-pointing compression pointer of `cyclePacket`, the decoder exhausts
EVERY fuel bound, i.e. the real code recurses unboundedly (crashing by
stack exhaustion) instead of failing. -/
theorem C1_cycle_decode_diverges (fuel : Nat) :
    decode fuel cyclePacket = .outOfFuel := by
  have hname := parse_name_cycle_outOfFuel fuel
  have hloop : parseQuestionsLoop fuel cyclePacket 1 [0xC0, 0x0C] =
      .outOfFuel := by
    show PRes.bind (parse_dns_question fuel cyclePacket [0xC0, 0x0C]) _ =
      .outOfFuel
    unfold parse_dns_question parse_domain_name
    rw [hname]
    rfl
  have hhdr : parse_dns_packet_header cyclePacket =
      .ok [0xC0, 0x0C] cycleHeader := rfl
  unfold decode
  rw [if_neg (by simp [cyclePacket])]
  unfold parse_dns_packet
  rw [hhdr]
  simp only [PRes.bind]
  rw [show cycleHeader.qdcount = 1 from rfl, hloop]

/-- A 14-byte packet (qdcount 1) whose question name is a compression
pointer with offset `0x01FF = 511`, far beyond the 14-byte packet. -/
def oobPointerPacket : List Nat :=
  [0, 0, 0, 0, 0, 1, 0, 0, 0, 0, 0, 0, 0xC1, 0xFF]

/-- Claim C2 (code bug): the spec demands a `ParseFailure` result (and no
panic) for pointers whose offset lies outside the packet, but for an
offset strictly beyond the packet length the Rust code evaluates
`&full_packet[offset..]`, which panics.  At offset 511 in a 14-byte
packet the decoder panics instead of returning a parse failure.  (At an
offset exactly equal to the packet length the slice is empty and a
`NomError` parse failure does result, so that boundary matches the
claim.) -/
theorem C2_oob_pointer_panics :
    decode 16 oobPointerPacket = .panicked ∧
    decode 16 [0, 0, 0, 0, 0, 1, 0, 0, 0, 0, 0, 0, 0xC0, 0x0E] = .nomErr := by
  constructor
  · rfl
  · rfl

/-- Claim C7 counterexample: on an 11-byte buffer the decoder returns
`Ok(None)` — a silent no-result — and NOT the `NeedMoreData(12, 11)`
(`IncompletePacket`) error the claim requires. -/
theorem C7_cex_eleven_byte_buffer :
    decode 100 [0, 0, 0, 0, 0, 0, 0, 0, 0, 0, 0] = .needMore ∧
    DecodeOutcome.needMore ≠ DecodeOutcome.incomplete 12 11 := by
  constructor
  · rfl
  · intro h
    cases h

/-- Claim C7 (amended): for every buffer shorter than 12 bytes and any
fuel, the decoder returns `Ok(None)` (`needMore`) — never a parsed packet,
never an error, and in particular never `NeedMoreData(12, len)`. -/
theorem C7_short_buffer_returns_none (fuel : Nat) (src : List Nat)
    (h : src.length < 12) : decode fuel src = .needMore := by
  unfold decode
  rw [if_pos h]

/-- Witness for C7: the empty buffer. -/
theorem C7_short_buffer_returns_none_witness :
    decode 0 ([] : List Nat) = .needMore :=
  C7_short_buffer_returns_none 0 [] (by decide)

/-- The wire form of a label list: each label prefixed by its length
byte (what the encoder's label loop emits for non-empty labels). -/
def wireLabels : List (List Nat) → List Nat
  | [] => []
  | l :: ls => (l.length :: l) ++ wireLabels ls

/-- One unfolding of `parse_name_recursive` in the literal-label case:
a length byte in `1..=63` consumes the label bytes, converts them lossily,
and recurses on the remainder with one unit of fuel spent. -/
theorem parse_name_label_step (fuel : Nat) (full l i : List Nat)
    (h1 : 1 ≤ l.length) (h63 : l.length ≤ 63) :
    parse_name_recursive (fuel + 1) full (l.length :: (l ++ i)) =
      match parse_name_recursive fuel full i with
      | .ok rest nextLabels => .ok rest (utf8Lossy l :: nextLabels)
      | .err => .err
      | .panicked => .panicked
      | .outOfFuel => .outOfFuel := by
  have hm : l.length % 256 = l.length := Nat.mod_eq_of_lt (by omega)
  have hstep : parse_name_recursive (fuel + 1) full (l.length :: (l ++ i)) =
      (if l.length % 256 &&& 0xC0 == 0xC0 then
        match l ++ i with
        | [] => PRes.err
        | nextByte :: i2 =>
          let offset := ((l.length % 256) * 256 + nextByte % 256) &&& 0x3FFF
          if offset > full.length then PRes.panicked
          else
            match parse_name_recursive fuel full (full.drop offset) with
            | .ok _ labels => .ok i2 labels
            | .err => .err
            | .panicked => .panicked
            | .outOfFuel => .outOfFuel
      else if l.length % 256 == 0 then PRes.ok (l ++ i) []
      else if l.length % 256 ≤ 63 then
        if (l ++ i).length < l.length % 256 then PRes.err
        else
          match parse_name_recursive fuel full
              ((l ++ i).drop (l.length % 256)) with
          | .ok rest nextLabels =>
            .ok rest (utf8Lossy ((l ++ i).take (l.length % 256)) :: nextLabels)
          | .err => .err
          | .panicked => .panicked
          | .outOfFuel => .outOfFuel
      else PRes.err) := rfl
  rw [hstep, hm]
  have h192 : (l.length &&& 0xC0 == 0xC0) = false := by
    rw [and192_eq_zero h63]
    rfl
  have h0 : (l.length == 0) = false := by
    simp only [beq_eq_false_iff_ne, ne_eq]
    omega
  rw [h192, h0]
  simp only [Bool.false_eq_true, if_false]
  rw [if_pos h63,
    if_neg (by simp only [List.length_append, not_lt]; omega),
    List.take_left, List.drop_left]

/-- Parsing the wire form of non-empty, length-bounded labels followed by
a terminator yields exactly those labels (lossily converted), leaving the
suffix untouched — provided the fuel exceeds the label count. -/
theorem parse_name_wireLabels (ls : List (List Nat)) (fuel : Nat)
    (full rest : List Nat)
    (h : ∀ l ∈ ls, 1 ≤ l.length ∧ l.length ≤ 63)
    (hfuel : ls.length < fuel) :
    parse_name_recursive fuel full (wireLabels ls ++ 0 :: rest) =
      .ok rest (ls.map utf8Lossy) := by
  induction ls generalizing fuel with
  | nil =>
    match fuel, hfuel with
    | fuel + 1, _ => rfl
  | cons l ls ih =>
    match fuel, hfuel with
    | fuel + 1, hfuel =>
      have hl := h l (by simp)
      have hrec := ih fuel (fun x hx => h x (List.mem_cons_of_mem _ hx))
        (by simpa using Nat.lt_of_succ_lt_succ hfuel)
      calc parse_name_recursive (fuel + 1) full
            (wireLabels (l :: ls) ++ 0 :: rest)
          = parse_name_recursive (fuel + 1) full
            (l.length :: (l ++ (wireLabels ls ++ 0 :: rest))) := by
            simp [wireLabels]
        _ = .ok rest ((l :: ls).map utf8Lossy) := by
            rw [parse_name_label_step fuel full l _ hl.1 hl.2, hrec]
            rfl

/-- Claim C10 (confirmed): a label of 1..=63 raw bytes that is NOT valid
UTF-8 is still accepted by the name parser: the label is converted lossily
by `String::from_utf8_lossy` (invalid sequences become U+FFFD) and the
parse succeeds instead of returning a parse failure. -/
theorem C10_invalid_utf8_label_accepted (l full : List Nat)
    (h1 : 1 ≤ l.length) (h63 : l.length ≤ 63)
    (_hbad : utf8Valid l = false) :
    parse_name_recursive 2 full (l.length :: (l ++ [0])) =
      .ok [] [utf8Lossy l] := by
  have h := parse_name_wireLabels [l] 2 full []
    (by simpa using ⟨h1, h63⟩) (by simp)
  simpa [wireLabels] using h

/-- Witness for C10: the single byte `0xFF` is not valid UTF-8; the parser
accepts it and yields the replacement character U+FFFD. -/
theorem C10_invalid_utf8_label_accepted_witness :
    1 ≤ ([0xFF] : List Nat).length ∧ ([0xFF] : List Nat).length ≤ 63 ∧
    utf8Valid [0xFF] = false ∧
    parse_name_recursive 2 [1, 0xFF, 0] [1, 0xFF, 0] =
      .ok [] [utf8Lossy [0xFF]] :=
  ⟨by decide, by decide, by decide,
    C10_invalid_utf8_label_accepted [0xFF] [1, 0xFF, 0] (by decide)
      (by decide) (by decide)⟩

/-- A UTF-8 chunk always consumes at least one byte of a non-empty list. -/
theorem utf8Chunk_pos (b : Nat) (rest : List Nat) :
    1 ≤ (utf8Chunk (b :: rest)).2 := by
  rw [utf8Chunk.eq_def]
  repeat' split
  all_goals first | decide | simp_all

/-- On valid UTF-8, the fuelled lossy conversion is the identity. -/
theorem utf8ValidGo_lossyGo (fuel : Nat) : ∀ xs : List Nat,
    xs.length ≤ fuel → utf8ValidGo fuel xs = true →
    utf8LossyGo fuel xs = xs := by
  induction fuel with
  | zero =>
    intro xs hlen _
    cases xs with
    | nil => rfl
    | cons b rest => simp at hlen
  | succ f ih =>
    intro xs hlen hv
    cases xs with
    | nil => rfl
    | cons b rest =>
      have hv' : ((utf8Chunk (b :: rest)).1 &&
          utf8ValidGo f ((b :: rest).drop (utf8Chunk (b :: rest)).2)) =
          true := hv
      rw [Bool.and_eq_true] at hv'
      have hl' : utf8LossyGo (f + 1) (b :: rest) =
          (if (utf8Chunk (b :: rest)).1 then
            (b :: rest).take (utf8Chunk (b :: rest)).2
          else utf8Replacement) ++
            utf8LossyGo f ((b :: rest).drop (utf8Chunk (b :: rest)).2) := rfl
      have hdrop : ((b :: rest).drop (utf8Chunk (b :: rest)).2).length ≤ f := by
        have hpos := utf8Chunk_pos b rest
        rw [List.length_drop]
        simp only [List.length_cons] at hlen ⊢
        omega
      rw [hl', if_pos hv'.1, ih _ hdrop hv'.2, List.take_append_drop]

/-- On valid UTF-8, `String::from_utf8_lossy` is the identity. -/
theorem utf8Valid_lossy_id (l : List Nat) (h : utf8Valid l = true) :
    utf8Lossy l = l :=
  utf8ValidGo_lossyGo l.length l (le_refl _) h

/-- Lossy conversion of an all-valid label list is the identity. -/
theorem map_utf8Lossy_id (ls : List (List Nat))
    (h : ∀ l ∈ ls, utf8Valid l = true) : ls.map utf8Lossy = ls := by
  induction ls with
  | nil => rfl
  | cons a as ih =>
    simp only [List.map_cons, utf8Valid_lossy_id a (h a (by simp))]
    rw [ih fun x hx => h x (List.mem_cons_of_mem _ hx)]

/-- `split` never yields an empty list of pieces. -/
theorem splitOnByte_ne_nil (sep : Nat) (xs : List Nat) :
    splitOnByte sep xs ≠ [] := by
  cases xs with
  | nil => simp [splitOnByte]
  | cons b rest =>
    rw [splitOnByte]
    split
    · simp
    · split <;> simp

/-- Joining the pieces of a split with the separator restores the input
(`'.'`-split then `"."`-join is the identity). -/
theorem joinDots_splitOnByte (xs : List Nat) :
    joinDots (splitOnByte 46 xs) = xs := by
  induction xs with
  | nil => rfl
  | cons b rest ih =>
    rw [splitOnByte]
    by_cases hb : b = 46
    · rw [if_pos (by simp [hb])]
      cases hsplit : splitOnByte 46 rest with
      | nil => exact absurd hsplit (splitOnByte_ne_nil 46 rest)
      | cons l ls =>
        rw [hsplit] at ih
        rw [joinDots, List.nil_append, hb, ih]
    · rw [if_neg (by simp [hb])]
      cases hsplit : splitOnByte 46 rest with
      | nil => exact absurd hsplit (splitOnByte_ne_nil 46 rest)
      | cons l ls =>
        rw [hsplit] at ih
        cases ls with
        | nil => simpa [joinDots] using ih
        | cons l2 ls2 =>
          rw [joinDots] at ih ⊢
          rw [List.cons_append, ih]

/-- Splitting after appending a trailing separator adds one empty piece. -/
theorem splitOnByte_snoc_sep (xs : List Nat) :
    splitOnByte 46 (xs ++ [46]) = splitOnByte 46 xs ++ [[]] := by
  induction xs with
  | nil => rfl
  | cons b rest ih =>
    rw [List.cons_append]
    by_cases hb : b = 46
    · rw [splitOnByte, splitOnByte, if_pos (by simp [hb]),
        if_pos (by simp [hb]), ih]
      rfl
    · rw [splitOnByte, splitOnByte, if_neg (by simp [hb]),
        if_neg (by simp [hb]), ih]
      cases hsplit : splitOnByte 46 rest with
      | nil => exact absurd hsplit (splitOnByte_ne_nil 46 rest)
      | cons l ls => simp [hsplit]

/-- A trailing empty label is skipped by the encoder's label loop. -/
theorem encodeLabels_snoc_empty (ls : List (List Nat)) :
    encodeLabels (ls ++ [[]]) = encodeLabels ls := by
  induction ls with
  | nil => rfl
  | cons l ls ih =>
    rw [List.cons_append, encodeLabels, encodeLabels]
    split
    · rfl
    · split
      · exact ih
      · rw [ih]

/-- On non-empty labels of wire-legal length, the encoder's label loop
succeeds and emits the wire form. -/
theorem encodeLabels_ok (ls : List (List Nat))
    (h : ∀ l ∈ ls, l ≠ [] ∧ l.length ≤ 63) :
    encodeLabels ls = .ok (wireLabels ls) := by
  induction ls with
  | nil => rfl
  | cons l ls ih =>
    obtain ⟨hne, h63⟩ := h l (by simp)
    have hpos : 1 ≤ l.length := List.length_pos.mpr hne
    rw [encodeLabels, if_neg (by omega),
      if_neg (by simp only [beq_iff_eq]; omega),
      ih fun x hx => h x (List.mem_cons_of_mem _ hx)]
    rfl

/-- The wire form is at least as long as the label count. -/
theorem wireLabels_length_ge (ls : List (List Nat)) :
    ls.length ≤ (wireLabels ls).length := by
  induction ls with
  | nil => exact Nat.le.refl
  | cons l ls ih =>
    simp only [wireLabels, List.length_cons, List.length_append]
    omega

/-- Claim C8 (confirmed): for any name whose `'.'`-separated labels are
all non-empty, at most 63 bytes and valid UTF-8, the encoder succeeds and
the name parser run on the encoder's output returns exactly the original
name with all bytes consumed; moreover appending a trailing dot to the
name leaves the encoding unchanged (trailing-dot normalization). -/
theorem C8_name_roundtrip (name : List Nat)
    (h : ∀ l ∈ splitOnByte 46 name,
      l ≠ [] ∧ l.length ≤ 63 ∧ utf8Valid l = true) :
    ∃ bs, encode_domain_name name = .ok bs ∧
      parse_domain_name (bs.length + 1) bs bs = .ok [] name ∧
      encode_domain_name (name ++ [46]) = encode_domain_name name := by
  have h1 : ∀ l ∈ splitOnByte 46 name, l ≠ [] ∧ l.length ≤ 63 :=
    fun l hl => ⟨(h l hl).1, (h l hl).2.1⟩
  have henc : encodeLabels (splitOnByte 46 name) =
      .ok (wireLabels (splitOnByte 46 name)) :=
    encodeLabels_ok _ h1
  refine ⟨wireLabels (splitOnByte 46 name) ++ [0], ?_, ?_, ?_⟩
  · unfold encode_domain_name
    rw [henc]
    rfl
  · have hlen : ∀ l ∈ splitOnByte 46 name, 1 ≤ l.length ∧ l.length ≤ 63 :=
      fun l hl => ⟨List.length_pos.mpr (h1 l hl).1, (h1 l hl).2⟩
    have hfuel : (splitOnByte 46 name).length <
        (wireLabels (splitOnByte 46 name) ++ [0]).length + 1 := by
      have hw := wireLabels_length_ge (splitOnByte 46 name)
      simp only [List.length_append, List.length_cons, List.length_nil]
      omega
    have hp := parse_name_wireLabels (splitOnByte 46 name) _
      (wireLabels (splitOnByte 46 name) ++ [0]) [] hlen hfuel
    unfold parse_domain_name
    rw [hp]
    simp only [PRes.bind]
    rw [map_utf8Lossy_id _ fun l hl => (h l hl).2.2, joinDots_splitOnByte]
  · unfold encode_domain_name
    rw [splitOnByte_snoc_sep, encodeLabels_snoc_empty]

/-- Witness for C8: the name `"ab.cd"` (bytes `[97, 98, 46, 99, 100]`). -/
theorem C8_name_roundtrip_witness :
    ∃ bs, encode_domain_name [97, 98, 46, 99, 100] = .ok bs ∧
      parse_domain_name (bs.length + 1) bs bs = .ok [] [97, 98, 46, 99, 100] ∧
      encode_domain_name ([97, 98, 46, 99, 100] ++ [46]) =
        encode_domain_name [97, 98, 46, 99, 100] :=
  C8_name_roundtrip [97, 98, 46, 99, 100] (by decide)

/-- Claim C3 (confirmed): whenever encoding succeeds, the bytes at offsets
4..6 and 6..8 of the output are the big-endian question and answer counts
taken from the ACTUAL collections (the header's declared `qdcount` and
`ancount` are discarded), while offsets 8..10 and 10..12 carry the
header's `nscount` and `arcount` unchanged. -/
theorem C3_encode_corrects_counts (p : DnsPacket) (bytes : List Nat)
    (henc : encode p = .ok bytes)
    (hq : p.questions.length < 65536) (ha : p.answers.length < 65536) :
    (bytes.drop 4).take 2 = be16 p.questions.length ∧
    (bytes.drop 6).take 2 = be16 p.answers.length ∧
    (bytes.drop 8).take 2 = be16 p.header.nscount ∧
    (bytes.drop 10).take 2 = be16 p.header.arcount := by
  unfold encode at henc
  cases hqe : encodeQuestions p.questions with
  | error e =>
    rw [hqe] at henc
    simp [Bind.bind, Except.bind] at henc
  | ok qb =>
    cases hae : encodeAnswers p.answers with
    | error e =>
      rw [hqe, hae] at henc
      simp [Bind.bind, Except.bind] at henc
    | ok ab =>
      rw [hqe, hae] at henc
      simp only [Bind.bind, Except.bind, Except.ok.injEq] at henc
      subst henc
      refine ⟨?_, ?_, ?_, ?_⟩ <;>
        simp [encode_header, be16, Nat.mod_eq_of_lt hq, Nat.mod_eq_of_lt ha]

/-- A packet whose declared `qdcount` (99) and `ancount` (7) disagree with
its single question and zero answers. -/
def c3Packet : DnsPacket :=
  { header :=
      { id := 0x1234, qr := false, opcode := 0, aa := false,
        tc := false, rd := true, ra := false, z := 0, rcode := 0,
        qdcount := 99, ancount := 7, nscount := 2, arcount := 3 },
    questions := [{ name := [113], qtype := 1, qclass := 1 }],
    answers := [] }

/-- The encoder's output on `c3Packet`. -/
def c3Bytes : List Nat :=
  [0x12, 0x34, 1, 0, 0, 1, 0, 0, 0, 2, 0, 3, 1, 113, 0, 0, 1, 0, 1]

/-- Witness for C3: the corrected counts 1 and 0 land at offsets 4..8 of
the concrete encoding, and `nscount`/`arcount` are carried through. -/
theorem C3_encode_corrects_counts_witness :
    (c3Bytes.drop 4).take 2 = be16 c3Packet.questions.length ∧
    (c3Bytes.drop 6).take 2 = be16 c3Packet.answers.length ∧
    (c3Bytes.drop 8).take 2 = be16 c3Packet.header.nscount ∧
    (c3Bytes.drop 10).take 2 = be16 c3Packet.header.arcount :=
  C3_encode_corrects_counts c3Packet c3Bytes rfl (by decide) (by decide)

/-- The query of the builder's own `test_response_builder` test: id 1234,
rd set, `qdcount = 1`, but no question present. -/
def c4Query : DnsPacket :=
  { header :=
      { id := 1234, qr := false, opcode := 0, aa := false,
        tc := false, rd := true, ra := false, z := 0, rcode := 0,
        qdcount := 1, ancount := 0, nscount := 0, arcount := 0 },
    questions := [], answers := [] }

/-- Claim C4 counterexample: in default echo mode with zero accumulated
answers, the response header's `ancount` is 1 (the query's `qdcount`), NOT
the number of accumulated answers (0) as the claim states. -/
theorem C4_cex_default_ancount :
    ((build_custom_response DnsResponseBuilder.new c4Query).build).header.ancount = 1 ∧
    ((build_custom_response DnsResponseBuilder.new c4Query).build).answers.length = 0 ∧
    ¬ (((build_custom_response DnsResponseBuilder.new c4Query).build).header.ancount =
      ((build_custom_response DnsResponseBuilder.new c4Query).build).answers.length) := by
  refine ⟨rfl, rfl, by decide⟩

/-- Claim C4 (amended): in default echo mode (no custom question and no
answer accumulated), `build` echoes the query's questions verbatim,
carries the (empty) accumulated answers, copies id and rd from the query —
but sets `ancount` to the query header's `qdcount`, not to the answer
count. -/
theorem C4_default_echo_build (s : ResponseBuilder)
    (hq : s.builder.questions = []) (ha : s.builder.answers = []) :
    (s.build).questions = s.query_packet.questions ∧
    (s.build).answers = [] ∧
    (s.build).header.ancount = s.query_packet.header.qdcount ∧
    (s.build).header.id = s.query_packet.header.id ∧
    (s.build).header.rd = s.query_packet.header.rd ∧
    (s.build).header.qdcount = s.query_packet.header.qdcount := by
  unfold ResponseBuilder.build
  rw [if_pos (by rw [hq]; rfl)]
  unfold build_response
  exact ⟨rfl, by simp [ha], rfl, rfl, rfl, rfl⟩

/-- Witness for C4 (amended): the fresh builder on `c4Query`. -/
theorem C4_default_echo_build_witness :
    ((build_custom_response DnsResponseBuilder.new c4Query).build).questions =
      c4Query.questions ∧
    ((build_custom_response DnsResponseBuilder.new c4Query).build).answers = [] ∧
    ((build_custom_response DnsResponseBuilder.new c4Query).build).header.ancount =
      c4Query.header.qdcount ∧
    ((build_custom_response DnsResponseBuilder.new c4Query).build).header.id =
      c4Query.header.id ∧
    ((build_custom_response DnsResponseBuilder.new c4Query).build).header.rd =
      c4Query.header.rd ∧
    ((build_custom_response DnsResponseBuilder.new c4Query).build).header.qdcount =
      c4Query.header.qdcount :=
  C4_default_echo_build (build_custom_response DnsResponseBuilder.new c4Query)
    rfl rfl

/-- A plain standard query used to seed the fluent builder for C5. -/
def c5Query : DnsPacket :=
  { header :=
      { id := 2222, qr := false, opcode := 0, aa := false,
        tc := false, rd := true, ra := false, z := 0, rcode := 0,
        qdcount := 1, ancount := 0, nscount := 0, arcount := 0 },
    questions := [], answers := [] }

/-- Claim C5 counterexample: `with_an_answer` called with an IPv6 address
appends a record of type 1 (A), NOT type 28 (AAAA) as the claim states —
the record type is hard-coded to `DNS_TYPE_A` regardless of IP family. -/
theorem C5_cex_v6_gives_type_a :
    ((build_custom_response DnsResponseBuilder.new c5Query).with_an_answer
        [97] (IpAddr.v6 0x2001 0xdb8 0 0 0 0 0 1) 60).builder.answers.map
      (fun a => a.rtype) = [1] ∧
    ¬ (((build_custom_response DnsResponseBuilder.new c5Query).with_an_answer
        [97] (IpAddr.v6 0x2001 0xdb8 0 0 0 0 0 1) 60).builder.answers.map
      (fun a => a.rtype) = [28]) := by
  refine ⟨rfl, by decide⟩

/-- Claim C5 (amended): `with_an_answer(name, ip, ttl)` ALWAYS appends a
record of type code 1 (A) and class IN, with the IP's raw octets as
payload — 4 bytes when the IP is IPv4 and 16 bytes when it is IPv6 (so an
IPv6 address yields a type-A record with a 16-byte payload, never a type
28 AAAA record). -/
theorem C5_with_an_answer_appends (s : ResponseBuilder) (domain : List Nat)
    (ip : IpAddr) (ttl : Nat) :
    (s.with_an_answer domain ip ttl).builder.answers =
      s.builder.answers ++ [DnsResourceRecord.new domain 1 1 ttl ip.octets] ∧
    ip.octets.length = (match ip with
      | .v4 _ _ _ _ => 4
      | .v6 _ _ _ _ _ _ _ _ => 16) := by
  refine ⟨rfl, ?_⟩
  cases ip <;> simp [IpAddr.octets, be16]

/-- A query with a non-standard opcode (1) and one question, used to
exercise the fall-back branch of `build`. -/
def c6Query : DnsPacket :=
  { header :=
      { id := 7, qr := false, opcode := 1, aa := false,
        tc := false, rd := true, ra := false, z := 0, rcode := 0,
        qdcount := 1, ancount := 0, nscount := 0, arcount := 0 },
    questions := [{ name := [120], qtype := 1, qclass := 1 }],
    answers := [] }

/-- A fluent chain that adds ONE answer (a TXT record) and NO custom
question. -/
def c6Chain : ResponseBuilder :=
  (build_custom_response DnsResponseBuilder.new c6Query).with_txt_answer
    [97] [98] 60

/-- Claim C6 counterexample: after adding one answer but no custom
question, `build` does NOT enter explicit mode: it returns the QUERY's
questions (not the builder's empty accumulated list) and leaves `rcode`
at 0 even though the query's opcode is 1 (the claim requires `rcode = 4`).
The branch in `build` tests only whether the accumulated QUESTION list is
non-empty. -/
theorem C6_cex_answers_only_falls_back :
    c6Chain.builder.answers.length = 1 ∧
    c6Chain.builder.questions = [] ∧
    c6Query.header.opcode = 1 ∧
    (c6Chain.build).questions = c6Query.questions ∧
    (c6Chain.build).header.rcode = 0 ∧
    ¬ ((c6Chain.build).header.rcode = 4) ∧
    ¬ ((c6Chain.build).questions = c6Chain.builder.questions) := by
  refine ⟨rfl, rfl, rfl, rfl, rfl, by decide, by decide⟩

/-- Claim C6 (amended): `build` enters explicit mode exactly when the
builder's accumulated question list is non-empty (custom questions are
added by `with_question`/`with_a_record`-style calls, and also by
`with_an_answer`/`with_aaaa_answer`, which insert one; adding answers only
through the CNAME/TXT/MX adders leaves the builder in default echo mode).
In explicit mode the response carries the builder's accumulated questions
and answers, copies id, rd and opcode from the query, and derives `rcode`
from the query's opcode: 0 when the opcode is 0, and 4 otherwise. -/
theorem C6_explicit_branch (s : ResponseBuilder)
    (h : s.builder.questions ≠ []) :
    (s.build).questions = s.builder.questions ∧
    (s.build).answers = s.builder.answers ∧
    (s.build).header.rcode =
      (if s.query_packet.header.opcode == 0 then 0 else 4) ∧
    (s.build).header.id = s.query_packet.header.id ∧
    (s.build).header.rd = s.query_packet.header.rd ∧
    (s.build).header.opcode = s.query_packet.header.opcode := by
  unfold ResponseBuilder.build
  rw [if_neg (by simp [List.isEmpty_iff, h])]
  exact ⟨rfl, rfl, rfl, rfl, rfl, rfl⟩

/-- Witness for C6 (amended): a builder with one accumulated TXT question
on a query with opcode 1 — `rcode` comes out as 4. -/
theorem C6_explicit_branch_witness :
    ((((build_custom_response DnsResponseBuilder.new c6Query).with_question
        [97] 16 1).build).questions =
      ((build_custom_response DnsResponseBuilder.new c6Query).with_question
        [97] 16 1).builder.questions) ∧
    ((((build_custom_response DnsResponseBuilder.new c6Query).with_question
        [97] 16 1).build).answers =
      ((build_custom_response DnsResponseBuilder.new c6Query).with_question
        [97] 16 1).builder.answers) ∧
    ((((build_custom_response DnsResponseBuilder.new c6Query).with_question
        [97] 16 1).build).header.rcode =
      (if c6Query.header.opcode == 0 then 0 else 4)) ∧
    ((((build_custom_response DnsResponseBuilder.new c6Query).with_question
        [97] 16 1).build).header.id = c6Query.header.id) ∧
    ((((build_custom_response DnsResponseBuilder.new c6Query).with_question
        [97] 16 1).build).header.rd = c6Query.header.rd) ∧
    ((((build_custom_response DnsResponseBuilder.new c6Query).with_question
        [97] 16 1).build).header.opcode = c6Query.header.opcode) :=
  C6_explicit_branch
    ((build_custom_response DnsResponseBuilder.new c6Query).with_question
      [97] 16 1) (by decide)
